import Mathlib

/-!
Verification of the TelaOS BLE assistant bridge (`src/tools/ble_assistant.py`).

The bridge's core — the request/response correlator, the binary chunk
reassembler, the HTTP fetch proxy, and the session supervisor's run loop —
is shallowly embedded below.  JSON values are modelled by the inductive
`Json` (JSON numbers are modelled as integers; the claims under study only
involve integral numbers, and Python's identification of `True` with `1`
as dictionary keys is likewise outside the modelled fragment).  The
outcome of the external HTTP collaborator (the `requests` library),
including the result of `resp.json()`, is an input to the embedded fetch
handler, mirroring the spec's description of the HTTP client as an
external collaborator.  Byte strings are modelled as `List Nat`.
-/

/-! ## JSON values and Python dictionary primitives -/

/-- A JSON value as decoded by Python's `json.loads` (numbers restricted to
integers). Objects keep their key/value pairs in insertion order, as Python
dictionaries do. -/
inductive Json where
  | null
  | bool (b : Bool)
  | num (n : Int)
  | str (s : String)
  | arr (xs : List Json)
  | obj (kvs : List (String × Json))
deriving Repr

/-- Lookup of a key in a Python dictionary modelled as an ordered
association list (`d[k]` / `k in d` support). -/
def dictGet? (d : List (String × Json)) (k : String) : Option Json :=
  (d.find? (fun kv => kv.1 = k)).map Prod.snd

/-- Insertion into a Python dictionary: overwrites the value in place if the
key is present, otherwise appends the new binding at the end. -/
def dictInsert (d : List (String × Json)) (k : String) (v : Json) : List (String × Json) :=
  if d.any (fun kv => kv.1 = k) then
    d.map (fun kv => if kv.1 = k then (k, v) else kv)
  else d ++ [(k, v)]

/-- Hexadecimal digit (lower case), as used by `json.dumps` for control
character escapes. -/
def hexDigit (n : Nat) : Char :=
  if n < 10 then Char.ofNat (48 + n) else Char.ofNat (87 + n)

/-- Escaping of a single character inside a JSON string literal, following
`json.dumps` (with `ensure_ascii=False`, as used at the fetch-filter site):
quote, backslash and the named control characters get two-character
escapes, remaining control characters a `\u00XX` escape, everything else
passes through. -/
def escapeJsonChar (c : Char) : List Char :=
  if c = '"' then ['\\', '"']
  else if c = '\\' then ['\\', '\\']
  else if c = '\n' then ['\\', 'n']
  else if c = '\t' then ['\\', 't']
  else if c = '\r' then ['\\', 'r']
  else if c = Char.ofNat 8 then ['\\', 'b']
  else if c = Char.ofNat 12 then ['\\', 'f']
  else if c.toNat < 32 then ['\\', 'u', '0', '0', hexDigit (c.toNat / 16), hexDigit (c.toNat % 16)]
  else [c]

/-- A JSON string literal with quotes, following `json.dumps`. -/
def quoteStr (s : String) : String :=
  "\"" ++ String.mk (s.toList.map escapeJsonChar).flatten ++ "\""

mutual

/-- Serialization of a JSON value, following `json.dumps` with its default
separators `", "` and `": "` (and `ensure_ascii=False`; the status-0 error
path of the source uses the default ASCII escaping, which agrees with this
on ASCII-only messages). -/
def Json.dumps : Json → String
  | Json.null => "null"
  | Json.bool b => cond b "true" "false"
  | Json.num n => toString n
  | Json.str s => quoteStr s
  | Json.arr xs => "[" ++ String.intercalate ", " (Json.dumpsList xs) ++ "]"
  | Json.obj kvs => "\x7b" ++ String.intercalate ", " (Json.dumpsPairs kvs) ++ "\x7d"

/-- Serialization of the elements of a JSON array. -/
def Json.dumpsList : List Json → List String
  | [] => []
  | x :: xs => Json.dumps x :: Json.dumpsList xs

/-- Serialization of the members of a JSON object. -/
def Json.dumpsPairs : List (String × Json) → List String
  | [] => []
  | (k, v) :: kvs => (quoteStr k ++ ": " ++ Json.dumps v) :: Json.dumpsPairs kvs

end

mutual

/-- Structural equality of JSON values (Python `==` on values decoded from
JSON, restricted to the modelled fragment). -/
def Json.beq : Json → Json → Bool
  | Json.null, Json.null => true
  | Json.bool a, Json.bool b => a == b
  | Json.num a, Json.num b => a == b
  | Json.str a, Json.str b => a == b
  | Json.arr xs, Json.arr ys => Json.beqList xs ys
  | Json.obj xs, Json.obj ys => Json.beqPairs xs ys
  | _, _ => false

/-- Pointwise equality of JSON arrays. -/
def Json.beqList : List Json → List Json → Bool
  | [], [] => true
  | x :: xs, y :: ys => Json.beq x y && Json.beqList xs ys
  | _, _ => false

/-- Pointwise equality of JSON object member lists. -/
def Json.beqPairs : List (String × Json) → List (String × Json) → Bool
  | [], [] => true
  | (k1, v1) :: xs, (k2, v2) :: ys => k1 == k2 && Json.beq v1 v2 && Json.beqPairs xs ys
  | _, _ => false

end

instance : BEq Json := ⟨Json.beq⟩

/-! ## Bridge state

The process-wide mutable state of the bridge: the pending-request table
(`pending_responses`, modelled by the set of request ids whose futures are
unresolved), the binary chunk buffer (`bin_buffer`), the declared expected
binary size (`bin_expected_size`), and the session flags `connected` and
`synced` of `BLEAssistant`. -/

/-- The shared mutable state of the bridge process. -/
structure BridgeState where
  pending : Finset Int
  binBuffer : List Nat
  binExpectedSize : Nat
  connected : Bool
  synced : Bool

/-! ## Correlator and TX-notification handler -/

/-- What `_on_tx_notify` did with a decoded frame (beyond logging). -/
inductive TxAction where
  | spawnFetch (msg : Json)
  | resolved (rid : Int) (status payload : Json)
  | droppedResponse
  | loggedOther
deriving Repr

/-- Structural classification of an inbound fetch request, from
`_on_tx_notify`: `isinstance(msg, dict) and "method" in msg and "url" in msg`. -/
def isFetchRequest (msg : Json) : Bool :=
  match msg with
  | Json.obj kvs => (dictGet? kvs "method").isSome && (dictGet? kvs "url").isSome
  | _ => false

/-- The TX-notification handler `_on_tx_notify`, applied to a successfully
decoded JSON message.  A dict with `method` and `url` spawns a fetch task;
a list of length at least 2 is a command response: its id is looked up in
the pending table, and a hit resolves the waiting future with
`(status, payload)` (payload defaulting to the empty dict for 2-element
frames) and deletes the table entry, while a miss only logs; everything
else only logs. -/
def on_tx_notify (st : BridgeState) (msg : Json) : BridgeState × TxAction :=
  if isFetchRequest msg then (st, TxAction.spawnFetch msg)
  else
    match msg with
    | Json.arr xs =>
        if 2 ≤ xs.length then
          let rid := xs.getD 0 Json.null
          let status := xs.getD 1 Json.null
          let payload := if 2 < xs.length then xs.getD 2 Json.null else Json.obj []
          match rid with
          | Json.num n =>
              if n ∈ st.pending then
                ({ st with pending := st.pending.erase n }, TxAction.resolved n status payload)
              else (st, TxAction.droppedResponse)
          | _ => (st, TxAction.droppedResponse)
        else (st, TxAction.loggedOther)
    | _ => (st, TxAction.loggedOther)

/-- Registration step of `send` with `wait=True`: the fresh request id is
entered into the pending table (`pending_responses[rid] = future`). -/
def send_register (pending : Finset Int) (rid : Int) : Finset Int :=
  insert rid pending

/-- Timeout branch of `send`: on `asyncio.TimeoutError` the id is popped
from the pending table and `("error", dict(code="timeout"))` is returned to
the caller. -/
def send_timeout (pending : Finset Int) (rid : Int) : Finset Int × (Json × Json) :=
  (pending.erase rid, (Json.str "error", Json.obj [("code", Json.str "timeout")]))

/-! ## Session supervisor flags -/

/-- The transport's disconnect callback `_on_disconnect`: clears both the
`connected` and the `synced` flag. -/
def on_disconnect (st : BridgeState) : BridgeState :=
  { st with connected := false, synced := false }

/-- The flag update performed by `sync` once the handshake command has
resolved: `synced` is set exactly when the returned status is `"ok"`;
otherwise the failure is only logged and the state is untouched. -/
def sync_update (st : BridgeState) (status : Json) : BridgeState :=
  match status with
  | Json.str s => if s = "ok" then { st with synced := true } else st
  | _ => st

/-! ## Chunk reassembler -/

/-- The BIN-notification handler `_on_bin_notify`: frames shorter than the
2-byte header are ignored; otherwise the little-endian 16-bit sequence
number is unpacked, sequence 0 resets the buffer, and the payload after the
header is appended. -/
def on_bin_notify (st : BridgeState) (data : List Nat) : BridgeState :=
  if data.length < 2 then st
  else
    let chunkId := data.getD 0 0 + 256 * data.getD 1 0
    let chunkData := data.drop 2
    let buf := if chunkId = 0 then [] else st.binBuffer
    { st with binBuffer := buf ++ chunkData }

/-- Completion test used by the caller awaiting a binary transfer:
`len(bin_buffer) >= bin_expected_size`. -/
def bin_is_complete (st : BridgeState) : Bool :=
  decide (st.binExpectedSize ≤ st.binBuffer.length)

/-- The five inbound chunk frames of the reference transfer: sequence
numbers 0..4 in little-endian 2-byte headers, followed by the payloads. -/
def chunk_stream (p0 p1 p2 p3 p4 : List Nat) : List (List Nat) :=
  [[0, 0] ++ p0, [1, 0] ++ p1, [2, 0] ++ p2, [3, 0] ++ p3, [4, 0] ++ p4]

/-! ## Binary sender (`send_binary`) -/

/-- `struct.pack("<H", n)`: the two little-endian bytes of `n`, or `none`
for `n` outside the unsigned 16-bit range (where `struct.pack` raises
`struct.error`). -/
def pack16le (n : Nat) : Option (List Nat) :=
  if n < 65536 then some [n % 256, n / 256] else none

/-- The chunking loop of `send_binary`, written with explicit fuel: while
data remains, emit a packet made of the packed chunk id followed by the
next `chunkSize`-byte slice, then advance.  `none` models the loop dying of
a `struct.error` once the chunk id leaves the 16-bit range.  Fuel
`data.length` is sufficient whenever `0 < chunkSize` (for `chunkSize = 0`
the source loops forever; every statement below assumes a positive chunk
size). -/
def send_binary_loop : Nat → Nat → Nat → List Nat → Option (List (List Nat))
  | 0, _, _, _ => some []
  | Nat.succ fuel, chunkSize, chunkId, data =>
      if data.isEmpty then some []
      else
        match pack16le chunkId with
        | none => none
        | some header =>
            match send_binary_loop fuel chunkSize (chunkId + 1) (data.drop chunkSize) with
            | none => none
            | some rest => some ((header ++ data.take chunkSize) :: rest)

/-- The sequence of packets written to the binary characteristic by
`send_binary(data, chunk_size)` (or `none` if the send dies of a
`struct.error`). -/
def send_binary_chunks (data : List Nat) (chunkSize : Nat) : Option (List (List Nat)) :=
  send_binary_loop data.length chunkSize 0 data

/-! ## Fetch proxy bridge -/

/-- The fields of an inbound fetch request read by `_handle_fetch` via
`msg.get`; absent fields are `none` (with the defaults applied at the use
sites, as in the source). -/
structure FetchReq where
  idOpt : Option Int
  method : Option String
  url : Option String
  reqBody : Option String
  format : Option String
  fields : List Json

/-- One outbound fetch-response frame `dict(id=rid, status=status, body=body)`
as passed to `_send_fetch_response`. -/
structure FetchResp where
  id : Int
  status : Int
  body : String
deriving DecidableEq, Repr

/-- Outcome of the external HTTP collaborator (`requests.request`): a
completed call carries the status code, the body text, and the value
`resp.json()` would produce (`none` when that raises `JSONDecodeError`);
`timeout` is `requests.Timeout`; `exn` is any other exception, carrying
`str(e)`. -/
inductive HttpResult where
  | ok (statusCode : Int) (body : String) (parsed : Option Json)
  | timeout
  | exn (message : String)

/-- A Python exception arising inside the field-filtering block. -/
inductive PyExn where
  | keyError
  | typeError (msg : String)
deriving DecidableEq, Repr

/-- Whether the first character list is a prefix of the second. -/
def charListHasPrefix : List Char → List Char → Bool
  | [], _ => true
  | _ :: _, [] => false
  | p :: ps, c :: cs => p == c && charListHasPrefix ps cs

/-- Whether the first character list occurs contiguously in the second
(Python's substring test `p in s`). -/
def charListHasInfix (p : List Char) : List Char → Bool
  | [] => charListHasPrefix p []
  | c :: cs => charListHasPrefix p (c :: cs) || charListHasInfix p cs

/-- Python's `k in data` for a decoded JSON value `data`: key membership
for dicts, element membership for lists, substring test for strings, and a
`TypeError` for non-container values. -/
def py_in (k : Json) (data : Json) : Except PyExn Bool :=
  match data with
  | Json.obj kvs =>
      Except.ok (match k with
        | Json.str s => (dictGet? kvs s).isSome
        | _ => false)
  | Json.arr xs => Except.ok (xs.contains k)
  | Json.str s =>
      match k with
      | Json.str ks => Except.ok (charListHasInfix ks.toList s.toList)
      | _ => Except.error (PyExn.typeError "in requires string as left operand")
  | _ => Except.error (PyExn.typeError "argument is not iterable")

/-- Python's `data[k]` for a decoded JSON value `data` and a key `k` known
to be hashable: dict lookup (raising `KeyError` on a miss), `TypeError`
on any non-dict value (list and string subscripts require integers). -/
def py_getitem (data : Json) (k : Json) : Except PyExn Json :=
  match data with
  | Json.obj kvs =>
      match k with
      | Json.str s =>
          match dictGet? kvs s with
          | some v => Except.ok v
          | none => Except.error PyExn.keyError
      | _ => Except.error PyExn.keyError
  | _ => Except.error (PyExn.typeError "indices must be integers")

/-- One step of the dict comprehension of the fetch filter: for one `k` of
`fields`, evaluate `k in data` and, when it holds, `data[k]`, extending the
accumulated dictionary. -/
def dict_comp_step (data : Json) (acc : List (String × Json)) (k : Json) :
    Except PyExn (List (String × Json)) := do
  let b ← py_in k data
  if b then do
    let v ← py_getitem data k
    match k with
    | Json.str s => pure (dictInsert acc s v)
    | _ => pure acc
      -- unreachable: a non-string key passes `py_in` only for a list,
      -- and there `py_getitem` has already raised a TypeError
  else pure acc

/-- The dict comprehension of the fetch filter,
`dict((k, data[k]) for k in fields if k in data)`, in left-to-right order
with Python's exception behaviour. -/
def dict_comp (data : Json) (fields : List Json) : Except PyExn (List (String × Json)) :=
  fields.foldlM (dict_comp_step data) []

/-- One step of the comprehension specialised to a parsed JSON object. -/
def filter_fields_step (kvs : List (String × Json)) (acc : List (String × Json)) (k : Json) :
    List (String × Json) :=
  match k with
  | Json.str s =>
      match dictGet? kvs s with
      | some v => dictInsert acc s v
      | none => acc
  | _ => acc

/-- The specialisation of the comprehension to a parsed JSON object: keep,
in field-list order, the listed keys that are present, with their values. -/
def filter_fields (kvs : List (String × Json)) (fields : List Json) : List (String × Json) :=
  fields.foldl (filter_fields_step kvs) []

/-- The guarded filtering block of `_handle_fetch`:
`try: data = resp.json(); filtered = ...; resp_body = json.dumps(filtered)`
with `except (JSONDecodeError, KeyError): pass` keeping the raw body.  A
`TypeError` is not caught here and escapes as `Except.error` (to be caught
by the handler's outer `except Exception`). -/
def try_filter_block (rawBody : String) (parsed : Option Json) (fields : List Json) :
    Except String String :=
  match parsed with
  | none => Except.ok rawBody
  | some data =>
      match dict_comp data fields with
      | Except.ok filtered => Except.ok (Json.dumps (Json.obj filtered))
      | Except.error PyExn.keyError => Except.ok rawBody
      | Except.error (PyExn.typeError m) => Except.error m

/-- The fetch handler `_handle_fetch`, given the outcome of the HTTP
collaborator, returning the list of response frames it passes to
`_send_fetch_response` (the transport write itself is the collaborator's
duty).  Every control path sends exactly one frame: the
requests-not-installed guard, the completed call (with best-effort field
filtering whose uncaught `TypeError` falls into the outer
`except Exception` branch), the `requests.Timeout` branch (status 408),
and the generic exception branch (status 0). -/
def handle_fetch (requestsAvailable : Bool) (req : FetchReq) (http : HttpResult) :
    List FetchResp :=
  let rid := req.idOpt.getD 0
  if !requestsAvailable then
    [{ id := rid, status := 0, body := "\x7b\"error\":\"requests not installed\"\x7d" }]
  else
    match http with
    | HttpResult.ok code body parsed =>
        if !req.fields.isEmpty && (req.format == some "json") then
          match try_filter_block body parsed req.fields with
          | Except.ok b => [{ id := rid, status := code, body := b }]
          | Except.error m =>
              [{ id := rid, status := 0, body := Json.dumps (Json.obj [("error", Json.str m)]) }]
        else [{ id := rid, status := code, body := body }]
    | HttpResult.timeout =>
        [{ id := rid, status := 408, body := "\x7b\"error\":\"timeout\"\x7d" }]
    | HttpResult.exn m =>
        [{ id := rid, status := 0, body := Json.dumps (Json.obj [("error", Json.str m)]) }]

/-! ## Session supervisor run loop -/

/-- What one pass of the `while True` body of `run` does next. -/
inductive RunOutcome where
  | continueLoop (backoffSeconds : Nat)
  | exitLoop
deriving DecidableEq, Repr

/-- One iteration of `run`'s `while True` body, given the mode and whether
`connect()` succeeded: a failed connect logs and retries after 5 seconds in
either mode (the `continue` precedes the mode test); on success, daemon
mode sleeps until the disconnect callback clears `connected` and then
retries after 2 seconds, while interactive mode runs the CLI loop until it
ends (quit or disconnect) and then breaks out of the run loop. -/
def run_iteration (daemon : Bool) (connectOk : Bool) : RunOutcome :=
  if !connectOk then RunOutcome.continueLoop 5
  else if daemon then RunOutcome.continueLoop 2
  else RunOutcome.exitLoop

/-- Iterating `run`'s loop body over a finite prefix of connect outcomes;
the result says whether the run loop terminated within that prefix. -/
def run_trace (daemon : Bool) : List Bool → Bool
  | [] => false
  | ok :: rest =>
      match run_iteration daemon ok with
      | RunOutcome.exitLoop => true
      | RunOutcome.continueLoop _ => run_trace daemon rest

/-! ## Claim theorems -/

/-- C1: for a command submitted with waiting enabled, each of the two
possible resolutions behaves as specified: a response frame with the
matching id resolves the call to that frame's `(status, payload)` — the
payload defaulting to the empty mapping when the frame has only two
elements (`List.headD` of the trailing elements) — and a fired deadline
resolves it to `("error", {code: "timeout"})`; in both cases the
pending-request table no longer contains the id afterwards.  (The
exclusivity of the two outcomes is the single-resolution discipline of
`asyncio.wait_for`, represented here by the two branches.) -/
theorem correlator_send_resolution (st : BridgeState) (rid : Int) (s : Json)
    (rest : List Json) :
    ((on_tx_notify { st with pending := send_register st.pending rid }
        (Json.arr (Json.num rid :: s :: rest))).2
        = TxAction.resolved rid s (rest.headD (Json.obj []))
      ∧ rid ∉ (on_tx_notify { st with pending := send_register st.pending rid }
        (Json.arr (Json.num rid :: s :: rest))).1.pending)
  ∧ ((send_timeout (send_register st.pending rid) rid).2
        = (Json.str "error", Json.obj [("code", Json.str "timeout")])
      ∧ rid ∉ (send_timeout (send_register st.pending rid) rid).1) := by
  constructor
  · cases rest with
    | nil => simp [on_tx_notify, isFetchRequest, send_register, Finset.not_mem_erase]
    | cons p tl => simp [on_tx_notify, isFetchRequest, send_register, Finset.not_mem_erase]
  · exact ⟨rfl, Finset.not_mem_erase _ _⟩

/-- C2: a well-formed response frame whose id has no pending entry leaves
the whole bridge state (pending table, chunk buffer, session flags)
unchanged; the handler merely logs and drops it. -/
theorem dropped_response_frame_no_effect (st : BridgeState) (i : Int) (s : Json)
    (rest : List Json) (h : i ∉ st.pending) :
    on_tx_notify st (Json.arr (Json.num i :: s :: rest)) = (st, TxAction.droppedResponse) := by
  simp [on_tx_notify, isFetchRequest, h]

/-- Witness for C2 at a concrete state and frame: id 7 was never issued. -/
theorem dropped_response_frame_no_effect_witness :
    (7 : Int) ∉ (⟨∅, [], 0, true, true⟩ : BridgeState).pending
    ∧ on_tx_notify ⟨∅, [], 0, true, true⟩ (Json.arr [Json.num 7, Json.str "ok"])
        = (⟨∅, [], 0, true, true⟩, TxAction.droppedResponse) :=
  ⟨by decide, dropped_response_frame_no_effect ⟨∅, [], 0, true, true⟩ 7 (Json.str "ok") [] (by decide)⟩

/-- C9: the `synced` flag is set only by a handshake status of `"ok"`; any
other status leaves the state (including `connected`) untouched, and the
transport's disconnect callback clears both `connected` and `synced`. -/
theorem sync_and_disconnect_flags (st : BridgeState) (status : Json) :
    (sync_update st (Json.str "ok")).synced = true
  ∧ (sync_update st (Json.str "ok")).connected = st.connected
  ∧ (status ≠ Json.str "ok" → sync_update st status = st)
  ∧ (on_disconnect st).connected = false
  ∧ (on_disconnect st).synced = false := by
  refine ⟨by simp [sync_update], by simp [sync_update], ?_, rfl, rfl⟩
  intro h
  cases status with
  | str s =>
      have hs : s ≠ "ok" := fun hs => h (by rw [hs])
      simp [sync_update, hs]
  | null => rfl
  | bool b => rfl
  | num n => rfl
  | arr xs => rfl
  | obj kvs => rfl

/-- Witness for C9: a failed handshake status (`null`) leaves a concrete
connected-but-unsynced state untouched, and `"ok"` sets the flag. -/
theorem sync_and_disconnect_flags_witness :
    Json.null ≠ Json.str "ok"
    ∧ sync_update ⟨∅, [], 0, true, false⟩ Json.null = ⟨∅, [], 0, true, false⟩
    ∧ (sync_update ⟨∅, [], 0, true, false⟩ (Json.str "ok")).synced = true :=
  ⟨fun h => Json.noConfusion h,
   (sync_and_disconnect_flags ⟨∅, [], 0, true, false⟩ Json.null).2.2.1 (fun h => Json.noConfusion h),
   (sync_and_disconnect_flags ⟨∅, [], 0, true, false⟩ Json.null).1⟩

/-- C10: a binary notification shorter than the 2-byte sequence header is
ignored: the chunk buffer and the expected-size state are unchanged. -/
theorem short_bin_frame_ignored (st : BridgeState) (data : List Nat)
    (h : data.length < 2) : on_bin_notify st data = st := by
  simp [on_bin_notify, h]

/-- Witness for C10 at a concrete 1-byte frame. -/
theorem short_bin_frame_ignored_witness :
    ([5] : List Nat).length < 2
    ∧ on_bin_notify ⟨∅, [1], 7, true, true⟩ [5] = ⟨∅, [1], 7, true, true⟩ :=
  ⟨by decide, short_bin_frame_ignored ⟨∅, [1], 7, true, true⟩ [5] (by decide)⟩

/-- C8 counterexample: in interactive mode a failed `connect()` does not
end the run loop — the body logs "Retry in 5s", sleeps, and `continue`s to
another connection attempt (the retry branch precedes the mode test). -/
theorem interactive_connect_failure_retries :
    run_iteration false false = RunOutcome.continueLoop 5
    ∧ run_iteration false false ≠ RunOutcome.exitLoop := by
  decide

/-- C8 amended: in daemon mode the run loop never terminates — every
iteration, whether the connect failed (5 s backoff) or an established
session ended in a disconnect (2 s backoff), is followed by another
connection attempt; in interactive mode a disconnect during (or a normal
end of) an active interactive session ends the run loop, while a connect
failure is retried after the same 5 s backoff as in daemon mode. -/
theorem run_loop_mode_behaviour :
    (∀ trace : List Bool, run_trace true trace = false)
  ∧ (∀ ok : Bool, run_iteration true ok = RunOutcome.continueLoop (if ok then 2 else 5))
  ∧ run_iteration false true = RunOutcome.exitLoop
  ∧ run_iteration false false = RunOutcome.continueLoop 5 := by
  refine ⟨?_, ?_, rfl, rfl⟩
  · intro trace
    induction trace with
    | nil => rfl
    | cons ok rest ih => cases ok <;> simp [run_trace, run_iteration, ih]
  · intro ok; cases ok <;> rfl

/-- Unfolding of the chunk handler on a frame with an explicit 2-byte
header. -/
theorem on_bin_notify_cons (s : BridgeState) (a b : Nat) (p : List Nat) :
    on_bin_notify s (a :: b :: p)
      = { s with binBuffer := (if a + 256 * b = 0 then [] else s.binBuffer) ++ p } := by
  have hlen : ¬ (a :: b :: p).length < 2 := by simp
  simp [on_bin_notify, hlen]

/-- C3: a chunk with sequence number 0 resets the buffer before appending
its payload, any other chunk appends its payload to the existing buffer in
arrival order, and feeding the five reference chunks with payload sizes
[250, 250, 250, 250, 24] against a declared expected size of 1024 yields a
completed buffer of exactly 1024 bytes equal to the concatenation of the
payloads (completion being buffer length at least the expected size). -/
theorem chunk_reassembler_behaviour (st : BridgeState) (d : List Nat)
    (p0 p1 p2 p3 p4 : List Nat)
    (h0 : p0.length = 250) (h1 : p1.length = 250) (h2 : p2.length = 250)
    (h3 : p3.length = 250) (h4 : p4.length = 24) :
    (2 ≤ d.length → d.getD 0 0 + 256 * d.getD 1 0 = 0 →
        (on_bin_notify st d).binBuffer = d.drop 2)
  ∧ (2 ≤ d.length → d.getD 0 0 + 256 * d.getD 1 0 ≠ 0 →
        (on_bin_notify st d).binBuffer = st.binBuffer ++ d.drop 2)
  ∧ ((List.foldl on_bin_notify { st with binExpectedSize := 1024 }
        (chunk_stream p0 p1 p2 p3 p4)).binBuffer = p0 ++ p1 ++ p2 ++ p3 ++ p4
      ∧ (List.foldl on_bin_notify { st with binExpectedSize := 1024 }
        (chunk_stream p0 p1 p2 p3 p4)).binBuffer.length = 1024
      ∧ bin_is_complete (List.foldl on_bin_notify { st with binExpectedSize := 1024 }
        (chunk_stream p0 p1 p2 p3 p4)) = true) := by
  have hfold : List.foldl on_bin_notify { st with binExpectedSize := 1024 }
      (chunk_stream p0 p1 p2 p3 p4)
      = { st with binExpectedSize := 1024, binBuffer := p0 ++ (p1 ++ (p2 ++ (p3 ++ p4))) } := by
    simp [chunk_stream, on_bin_notify_cons]
  refine ⟨?_, ?_, ?_, ?_, ?_⟩
  · intro hlen hid
    have hnl : ¬ d.length < 2 := by omega
    simp only [on_bin_notify, if_neg hnl, if_pos hid, List.nil_append]
  · intro hlen hid
    have hnl : ¬ d.length < 2 := by omega
    simp only [on_bin_notify, if_neg hnl, if_neg hid]
  · rw [hfold]; simp [List.append_assoc]
  · rw [hfold]; simp [h0, h1, h2, h3, h4]
  · rw [hfold]; simp [bin_is_complete, h0, h1, h2, h3, h4]

/-- Witness for C3 at concrete payloads (replicated bytes) and a concrete
starting state with stale buffer contents. -/
theorem chunk_reassembler_behaviour_witness :
    (List.replicate 250 (7 : Nat)).length = 250
    ∧ (List.replicate 24 (9 : Nat)).length = 24
    ∧ bin_is_complete (List.foldl on_bin_notify ⟨∅, [3, 3], 1024, true, true⟩
        (chunk_stream (List.replicate 250 7) (List.replicate 250 7) (List.replicate 250 7)
          (List.replicate 250 7) (List.replicate 24 9))) = true :=
  ⟨List.length_replicate 250 7, List.length_replicate 24 9,
   (chunk_reassembler_behaviour ⟨∅, [3, 3], 1024, true, true⟩ []
      (List.replicate 250 7) (List.replicate 250 7) (List.replicate 250 7)
      (List.replicate 250 7) (List.replicate 24 9)
      (List.length_replicate 250 7) (List.length_replicate 250 7) (List.length_replicate 250 7)
      (List.length_replicate 250 7) (List.length_replicate 24 9)).2.2.2.2⟩

/-- Ceiling division rewritten through the predecessor:
`ceil(n / c) = (n - 1) / c + 1` for positive `n`. -/
theorem ceil_div_pos (c n : Nat) (hc : 0 < c) (hn : 0 < n) :
    (n + c - 1) / c = (n - 1) / c + 1 := by
  have h : n + c - 1 = (n - 1) + c := by omega
  rw [h, Nat.add_div_right _ hc]

/-- Dropping one chunk decrements the ceiling chunk count. -/
theorem ceil_div_drop (c n : Nat) (hc : 0 < c) (hn : 0 < n) :
    (n + c - 1) / c = ((n - c) + c - 1) / c + 1 := by
  rcases le_or_lt n c with h | h
  · have h1 : n - c = 0 := by omega
    rw [h1, ceil_div_pos c n hc hn, Nat.div_eq_of_lt (by omega : n - 1 < c),
      Nat.div_eq_of_lt (by omega : 0 + c - 1 < c)]
  · rw [ceil_div_pos c n hc hn, ceil_div_pos c (n - c) hc (by omega)]
    have h1 : n - 1 = (n - c - 1) + c := by omega
    rw [h1, Nat.add_div_right _ hc]

/-- With positive chunk size, fuel at least the data length, and all chunk
ids inside the 16-bit range, the chunking loop succeeds and produces the
expected packets. -/
theorem send_binary_loop_ok (c : Nat) (hc : 0 < c) :
    ∀ (fuel chunkId : Nat) (data : List Nat), data.length ≤ fuel →
      chunkId + (data.length + c - 1) / c ≤ 65536 →
      ∃ L, send_binary_loop fuel c chunkId data = some L
        ∧ L.length = (data.length + c - 1) / c
        ∧ ∀ i, i < L.length →
            L.get? i = some ([(chunkId + i) % 256, (chunkId + i) / 256]
              ++ (data.drop (i * c)).take c) := by
  intro fuel
  induction fuel with
  | zero =>
      intro chunkId data hfuel hbound
      have hdata : data = [] := List.eq_nil_of_length_eq_zero (by omega)
      subst hdata
      refine ⟨[], rfl, ?_, ?_⟩
      · simp only [List.length_nil, Nat.zero_add]
        rw [Nat.div_eq_of_lt (by omega : c - 1 < c)]
      · intro i hi
        simp at hi
  | succ fuel ih =>
      intro chunkId data hfuel hbound
      cases data with
      | nil =>
          refine ⟨[], rfl, ?_, ?_⟩
          · simp only [List.length_nil, Nat.zero_add]
            rw [Nat.div_eq_of_lt (by omega : c - 1 < c)]
          · intro i hi
            simp at hi
      | cons x xs =>
          have hn1 : 0 < (x :: xs).length := by simp
          have hceil1 : 1 ≤ ((x :: xs).length + c - 1) / c := by
            rw [ceil_div_pos c _ hc hn1]
            exact Nat.le_add_left 1 _
          have hid : chunkId < 65536 := by omega
          have hpack : pack16le chunkId = some [chunkId % 256, chunkId / 256] := by
            simp [pack16le, hid]
          have hdroplen : ((x :: xs).drop c).length ≤ fuel := by
            rw [List.length_drop]
            omega
          have hd := ceil_div_drop c (x :: xs).length hc hn1
          have hbound2 : (chunkId + 1) + (((x :: xs).drop c).length + c - 1) / c ≤ 65536 := by
            rw [List.length_drop]
            omega
          obtain ⟨L2, hL2, hlen2, hget2⟩ := ih (chunkId + 1) ((x :: xs).drop c) hdroplen hbound2
          refine ⟨([chunkId % 256, chunkId / 256] ++ (x :: xs).take c) :: L2, ?_, ?_, ?_⟩
          · simp [send_binary_loop, hpack, hL2]
          · rw [List.length_cons, hlen2, List.length_drop]
            omega
          · intro i hi
            cases i with
            | zero => simp
            | succ j =>
                simp only [List.length_cons] at hi
                have hj : j < L2.length := by omega
                have hg := hget2 j hj
                have e1 : chunkId + 1 + j = chunkId + (j + 1) := by omega
                rw [e1] at hg
                rw [List.drop_drop, (by ring : c + j * c = (j + 1) * c)] at hg
                simpa using hg

/-- Once the chunk id would reach 65536 with data still left, the chunking
loop dies of the `struct.error` raised by `struct.pack("<H", ...)`. -/
theorem send_binary_loop_exhausts (c : Nat) (hc : 0 < c) :
    ∀ (k fuel chunkId : Nat) (data : List Nat), data.length ≤ fuel →
      chunkId + k = 65536 → k * c < data.length →
      send_binary_loop fuel c chunkId data = none := by
  intro k
  induction k with
  | zero =>
      intro fuel chunkId data hfuel hid hlen
      cases data with
      | nil => simp at hlen
      | cons x xs =>
          cases fuel with
          | zero => simp at hfuel
          | succ f =>
              have h65536 : chunkId = 65536 := by omega
              subst h65536
              simp [send_binary_loop, pack16le]
  | succ k ih =>
      intro fuel chunkId data hfuel hid hlen
      cases data with
      | nil => simp at hlen
      | cons x xs =>
          cases fuel with
          | zero => simp at hfuel
          | succ f =>
              have hidlt : chunkId < 65536 := by omega
              have hpack : pack16le chunkId = some [chunkId % 256, chunkId / 256] := by
                simp [pack16le, hidlt]
              have hrec : send_binary_loop f c (chunkId + 1) ((x :: xs).drop c) = none := by
                apply ih
                · rw [List.length_drop]; omega
                · omega
                · rw [List.length_drop]
                  have hm : (k + 1) * c = k * c + c := by ring
                  omega
              simp [send_binary_loop, hpack, hrec]

/-- C4 amended: for a positive chunk size `c` and any data needing at most
65536 chunks (so that every 2-byte little-endian sequence number fits —
beyond that the push dies of a `struct.error`, see the counterexample),
`send_binary` emits `ceil(n / c)` packets whose payloads are the
consecutive `c`-byte slices of the input in order, each prefixed by the
2-byte little-endian sequence number starting at 0 and incrementing by 1;
in particular any 1024-byte blob with chunk size 250 yields exactly 5
packets with sequence numbers 0..4 and payload lengths
[250, 250, 250, 250, 24]. -/
theorem send_binary_push_spec (data : List Nat) (c : Nat) (hc : 0 < c)
    (hsize : data.length ≤ 65536 * c) :
    (∃ L, send_binary_chunks data c = some L
      ∧ L.length = (data.length + c - 1) / c
      ∧ ∀ i, i < L.length →
          L.get? i = some ([i % 256, i / 256] ++ (data.drop (i * c)).take c))
  ∧ (∀ blob : List Nat, blob.length = 1024 →
      ∃ L, send_binary_chunks blob 250 = some L
        ∧ L.map (fun ch => ch.take 2) = [[0, 0], [1, 0], [2, 0], [3, 0], [4, 0]]
        ∧ L.map (fun ch => ch.drop 2)
            = [blob.take 250, (blob.drop 250).take 250, (blob.drop 500).take 250,
               (blob.drop 750).take 250, (blob.drop 1000).take 250]
        ∧ L.map (fun ch => (ch.drop 2).length) = [250, 250, 250, 250, 24]) := by
  constructor
  · have h1 : data.length + c - 1 ≤ c - 1 + 65536 * c := by omega
    have h2 : (c - 1 + 65536 * c) / c = 65536 := by
      rw [Nat.add_mul_div_right _ _ hc, Nat.div_eq_of_lt (by omega : c - 1 < c)]
    have h3 : (data.length + c - 1) / c ≤ 65536 := by
      calc (data.length + c - 1) / c ≤ (c - 1 + 65536 * c) / c := Nat.div_le_div_right h1
        _ = 65536 := h2
    obtain ⟨L, hL, hlen, hget⟩ :=
      send_binary_loop_ok c hc data.length 0 data le_rfl (by omega)
    refine ⟨L, by simpa [send_binary_chunks] using hL, hlen, ?_⟩
    intro i hi
    simpa using hget i hi
  · intro blob hblob
    have hbound : 0 + (blob.length + 250 - 1) / 250 ≤ 65536 := by
      rw [hblob]
      norm_num
    obtain ⟨L, hL, hlen, hget⟩ :=
      send_binary_loop_ok 250 (by norm_num) blob.length 0 blob le_rfl hbound
    have hlen5 : L.length = 5 := by rw [hlen, hblob]
    have hLeq : L = [[0, 0] ++ blob.take 250, [1, 0] ++ (blob.drop 250).take 250,
        [2, 0] ++ (blob.drop 500).take 250, [3, 0] ++ (blob.drop 750).take 250,
        [4, 0] ++ (blob.drop 1000).take 250] := by
      apply List.ext_get?
      intro n
      rcases n with _ | _ | _ | _ | _ | n
      · simpa using hget 0 (by omega)
      · simpa using hget 1 (by omega)
      · simpa using hget 2 (by omega)
      · simpa using hget 3 (by omega)
      · simpa using hget 4 (by omega)
      · rw [List.get?_eq_none.mpr (by omega)]
        symm
        apply List.get?_eq_none.mpr
        simp only [List.length_cons, List.length_nil]
        omega
    refine ⟨L, by simpa [send_binary_chunks] using hL, ?_, ?_, ?_⟩
    · rw [hLeq]; simp
    · rw [hLeq]; simp
    · rw [hLeq]; simp [hblob]

/-- Witness for C4 (amended) at a concrete 3-byte blob with chunk size 2. -/
theorem send_binary_push_spec_witness :
    (0 : Nat) < 2 ∧ ([1, 2, 3] : List Nat).length ≤ 65536 * 2
    ∧ ∃ L, send_binary_chunks [1, 2, 3] 2 = some L
        ∧ L.length = (([1, 2, 3] : List Nat).length + 2 - 1) / 2
        ∧ ∀ i, i < L.length →
            L.get? i = some ([i % 256, i / 256] ++ (([1, 2, 3] : List Nat).drop (i * 2)).take 2) :=
  ⟨by norm_num, by norm_num, (send_binary_push_spec [1, 2, 3] 2 (by norm_num) (by norm_num)).1⟩

/-- C4 counterexample: a blob of 65536 * 250 + 1 bytes pushed with chunk
size 250 needs 65537 chunks, so the 65537th call of
`struct.pack("<H", 65536)` raises `struct.error` — the push does not emit
`ceil(n / c)` packets as the claim states for every byte sequence. -/
theorem send_binary_large_blob_counterexample :
    send_binary_chunks (List.replicate 16384001 0) 250 = none := by
  unfold send_binary_chunks
  refine send_binary_loop_exhausts 250 (by norm_num) 65536 _ 0 _ le_rfl (by norm_num) ?_
  rw [List.length_replicate]
  norm_num

/-- Unfolding of dictionary lookup over a cons cell. -/
theorem dictGet?_cons (k1 : String) (v1 : Json) (tl : List (String × Json)) (s : String) :
    dictGet? ((k1, v1) :: tl) s = if k1 = s then some v1 else dictGet? tl s := by
  by_cases h : k1 = s
  · simp [dictGet?, List.find?, h]
  · simp [dictGet?, List.find?, h]

/-- Lookup after in-place replacement, at a different key. -/
theorem dictGet?_map_replace (d : List (String × Json)) (k s : String) (v : Json)
    (hs : s ≠ k) :
    dictGet? (d.map (fun kv => if kv.1 = k then (k, v) else kv)) s = dictGet? d s := by
  induction d with
  | nil => rfl
  | cons kv tl ih =>
      obtain ⟨k1, v1⟩ := kv
      simp only [List.map_cons]
      by_cases h1 : k1 = k
      · rw [show (if (k1, v1).1 = k then (k, v) else (k1, v1)) = (k, v) from by simp [h1]]
        rw [dictGet?_cons, dictGet?_cons, if_neg (fun he => hs he.symm),
          if_neg (fun he : k1 = s => hs (he ▸ h1)), ih]
      · rw [show (if (k1, v1).1 = k then (k, v) else (k1, v1)) = (k1, v1) from by simp [h1]]
        rw [dictGet?_cons, dictGet?_cons]
        by_cases h2 : k1 = s
        · rw [if_pos h2, if_pos h2]
        · rw [if_neg h2, if_neg h2, ih]

/-- Lookup after in-place replacement, at the replaced key (which must be
present). -/
theorem dictGet?_map_replace_self (d : List (String × Json)) (k : String) (v : Json)
    (hmem : d.any (fun kv => kv.1 = k) = true) :
    dictGet? (d.map (fun kv => if kv.1 = k then (k, v) else kv)) k = some v := by
  induction d with
  | nil => simp at hmem
  | cons kv tl ih =>
      obtain ⟨k1, v1⟩ := kv
      simp only [List.map_cons]
      by_cases h1 : k1 = k
      · rw [show (if (k1, v1).1 = k then (k, v) else (k1, v1)) = (k, v) from by simp [h1]]
        rw [dictGet?_cons, if_pos rfl]
      · rw [show (if (k1, v1).1 = k then (k, v) else (k1, v1)) = (k1, v1) from by simp [h1]]
        rw [dictGet?_cons, if_neg h1]
        apply ih
        rcases (by simpa using hmem : k1 = k ∨ tl.any (fun kv => kv.1 = k) = true) with h | h
        · exact absurd h h1
        · exact h

/-- A key that fails the membership scan is absent. -/
theorem dictGet?_eq_none_of_not_any (d : List (String × Json)) (k : String)
    (h : d.any (fun kv => kv.1 = k) = false) : dictGet? d k = none := by
  induction d with
  | nil => rfl
  | cons kv tl ih =>
      obtain ⟨k1, v1⟩ := kv
      simp only [List.any_cons, Bool.or_eq_false_iff] at h
      rw [dictGet?_cons, if_neg (by simpa using h.1)]
      exact ih h.2

/-- Lookup at the appended key when it was absent before. -/
theorem dictGet?_append_hit (d : List (String × Json)) (k : String) (v : Json)
    (h : dictGet? d k = none) : dictGet? (d ++ [(k, v)]) k = some v := by
  induction d with
  | nil => rw [List.nil_append, dictGet?_cons, if_pos rfl]
  | cons kv tl ih =>
      obtain ⟨k1, v1⟩ := kv
      rw [dictGet?_cons] at h
      by_cases h1 : k1 = k
      · rw [if_pos h1] at h
        exact absurd h (by simp)
      · rw [if_neg h1] at h
        rw [List.cons_append, dictGet?_cons, if_neg h1]
        exact ih h

/-- Lookup at a different key is unaffected by an append. -/
theorem dictGet?_append_miss (d : List (String × Json)) (k : String) (v : Json)
    (s : String) (hs : s ≠ k) : dictGet? (d ++ [(k, v)]) s = dictGet? d s := by
  induction d with
  | nil =>
      rw [List.nil_append, dictGet?_cons, if_neg (fun he => hs he.symm)]
  | cons kv tl ih =>
      obtain ⟨k1, v1⟩ := kv
      rw [List.cons_append, dictGet?_cons, dictGet?_cons]
      by_cases h1 : k1 = s
      · rw [if_pos h1, if_pos h1]
      · rw [if_neg h1, if_neg h1, ih]

/-- Lookup through `dictInsert`: the inserted key now maps to the new
value, everything else is untouched. -/
theorem dictGet?_dictInsert (d : List (String × Json)) (k s : String) (v : Json) :
    dictGet? (dictInsert d k v) s = if s = k then some v else dictGet? d s := by
  unfold dictInsert
  by_cases hmem : d.any (fun kv => kv.1 = k)
  · rw [if_pos hmem]
    by_cases hs : s = k
    · subst hs
      rw [if_pos rfl, dictGet?_map_replace_self d s v hmem]
    · rw [if_neg hs, dictGet?_map_replace d k s v hs]
  · rw [if_neg hmem]
    by_cases hs : s = k
    · subst hs
      rw [if_pos rfl]
      exact dictGet?_append_hit d s v
        (dictGet?_eq_none_of_not_any d s (Bool.eq_false_iff.mpr hmem))
    · rw [if_neg hs]
      exact dictGet?_append_miss d k v s hs

/-- A key that is not listed in the remaining fields is untouched by the
filter fold. -/
theorem filter_foldl_not_mem (kvs : List (String × Json)) (s : String) :
    ∀ (fields : List Json) (acc : List (String × Json)), Json.str s ∉ fields →
      dictGet? (List.foldl (filter_fields_step kvs) acc fields) s = dictGet? acc s := by
  intro fields
  induction fields with
  | nil => intro acc _; rfl
  | cons k rest ih =>
      intro acc h
      rw [List.mem_cons, not_or] at h
      obtain ⟨h1, h2⟩ := h
      rw [List.foldl_cons, ih _ h2]
      cases k with
      | str t =>
          have hts : s ≠ t := fun he => h1 (by rw [he])
          cases hl : dictGet? kvs t with
          | none => simp [filter_fields_step, hl]
          | some w => simp [filter_fields_step, hl, dictGet?_dictInsert, hts]
      | null => rfl
      | bool b => rfl
      | num n => rfl
      | arr xs => rfl
      | obj o => rfl

/-- A key absent from the source object is never added by the filter fold. -/
theorem filter_foldl_absent (kvs : List (String × Json)) (s : String)
    (habs : dictGet? kvs s = none) :
    ∀ (fields : List Json) (acc : List (String × Json)),
      dictGet? (List.foldl (filter_fields_step kvs) acc fields) s = dictGet? acc s := by
  intro fields
  induction fields with
  | nil => intro acc; rfl
  | cons k rest ih =>
      intro acc
      rw [List.foldl_cons, ih]
      cases k with
      | str t =>
          by_cases hts : t = s
          · subst hts
            simp [filter_fields_step, habs]
          · cases hl : dictGet? kvs t with
            | none => simp [filter_fields_step, hl]
            | some w =>
                simp [filter_fields_step, hl, dictGet?_dictInsert,
                  (show s ≠ t from fun he => hts he.symm)]
      | null => rfl
      | bool b => rfl
      | num n => rfl
      | arr xs => rfl
      | obj o => rfl

/-- The filter fold preserves an accumulated binding that agrees with the
source object. -/
theorem filter_foldl_pres (kvs : List (String × Json)) (s : String) (v : Json)
    (hv : dictGet? kvs s = some v) :
    ∀ (fields : List Json) (acc : List (String × Json)), dictGet? acc s = some v →
      dictGet? (List.foldl (filter_fields_step kvs) acc fields) s = some v := by
  intro fields
  induction fields with
  | nil => intro acc h; exact h
  | cons k rest ih =>
      intro acc h
      rw [List.foldl_cons]
      apply ih
      cases k with
      | str t =>
          by_cases hts : t = s
          · subst hts
            simp [filter_fields_step, hv, dictGet?_dictInsert]
          · cases hl : dictGet? kvs t with
            | none => simpa [filter_fields_step, hl] using h
            | some w =>
                simpa [filter_fields_step, hl, dictGet?_dictInsert,
                  (show s ≠ t from fun he => hts he.symm)] using h
      | null => exact h
      | bool b => exact h
      | num n => exact h
      | arr xs => exact h
      | obj o => exact h

/-- A listed key that is present in the source object ends up in the
filtered dictionary with its source value. -/
theorem filter_foldl_mem (kvs : List (String × Json)) (s : String) (v : Json)
    (hv : dictGet? kvs s = some v) :
    ∀ (fields : List Json) (acc : List (String × Json)), Json.str s ∈ fields →
      dictGet? (List.foldl (filter_fields_step kvs) acc fields) s = some v := by
  intro fields
  induction fields with
  | nil => intro acc h; simp at h
  | cons k rest ih =>
      intro acc h
      rw [List.foldl_cons]
      rcases List.mem_cons.mp h with he | hm
      · apply filter_foldl_pres kvs s v hv rest
        rw [← he]
        simp [filter_fields_step, hv, dictGet?_dictInsert]
      · exact ih _ hm

/-- For a parsed JSON object the comprehension step never raises. -/
theorem dict_comp_step_obj (kvs acc : List (String × Json)) (k : Json) :
    dict_comp_step (Json.obj kvs) acc k = Except.ok (filter_fields_step kvs acc k) := by
  cases k with
  | str s =>
      cases h : dictGet? kvs s with
      | none =>
          simp only [dict_comp_step, filter_fields_step, py_in, py_getitem, h,
            Option.isSome_none]
          rfl
      | some v =>
          simp only [dict_comp_step, filter_fields_step, py_in, py_getitem, h,
            Option.isSome_some]
          rfl
  | null => rfl
  | bool b => rfl
  | num n => rfl
  | arr xs => rfl
  | obj o => rfl

/-- For a parsed JSON object the whole comprehension succeeds and equals
the pure field filter. -/
theorem dict_comp_obj (kvs : List (String × Json)) (fields : List Json) :
    dict_comp (Json.obj kvs) fields = Except.ok (filter_fields kvs fields) := by
  unfold dict_comp filter_fields
  suffices h : ∀ acc, List.foldlM (dict_comp_step (Json.obj kvs)) acc fields
      = Except.ok (List.foldl (filter_fields_step kvs) acc fields) from h []
  intro acc
  induction fields generalizing acc with
  | nil => rfl
  | cons k rest ih =>
      rw [List.foldlM_cons, dict_comp_step_obj, List.foldl_cons]
      exact ih (filter_fields_step kvs acc k)

/-- C5: for a fetch request with format "json" and a non-empty field list,
a body parsing as a JSON object is replaced by the serialised filtered
object that contains exactly the listed keys present in the parsed object
with their values preserved (shown by the three lookup properties and the
concrete example of the claim), while a body that does not parse as JSON
is proxied unchanged. -/
theorem fetch_filter_json_behaviour (req : FetchReq) (code : Int) (body : String)
    (kvs : List (String × Json))
    (hfmt : req.format = some "json") (hne : req.fields ≠ []) :
    (handle_fetch true req (HttpResult.ok code body (some (Json.obj kvs)))
        = [⟨req.idOpt.getD 0, code, Json.dumps (Json.obj (filter_fields kvs req.fields))⟩])
  ∧ (∀ s v, Json.str s ∈ req.fields → dictGet? kvs s = some v →
        dictGet? (filter_fields kvs req.fields) s = some v)
  ∧ (∀ s, Json.str s ∉ req.fields → dictGet? (filter_fields kvs req.fields) s = none)
  ∧ (∀ s, dictGet? kvs s = none → dictGet? (filter_fields kvs req.fields) s = none)
  ∧ filter_fields [("a", Json.num 1), ("b", Json.num 2), ("c", Json.num 3)]
        [Json.str "a", Json.str "b"] = [("a", Json.num 1), ("b", Json.num 2)]
  ∧ (handle_fetch true req (HttpResult.ok code body none)
        = [⟨req.idOpt.getD 0, code, body⟩]) := by
  have hie : req.fields.isEmpty = false := by
    rcases hf : req.fields with _ | ⟨a, l⟩
    · exact absurd hf hne
    · rfl
  have htf : try_filter_block body (some (Json.obj kvs)) req.fields
      = Except.ok (Json.dumps (Json.obj (filter_fields kvs req.fields))) := by
    simp [try_filter_block, dict_comp_obj]
  refine ⟨?_, ?_, ?_, ?_, by rfl, ?_⟩
  · simp [handle_fetch, hie, hfmt, htf]
  · intro s v hmem hv
    unfold filter_fields
    exact filter_foldl_mem kvs s v hv req.fields [] hmem
  · intro s hs
    unfold filter_fields
    rw [filter_foldl_not_mem kvs s req.fields [] hs]
    rfl
  · intro s hv
    unfold filter_fields
    rw [filter_foldl_absent kvs s hv req.fields []]
    rfl
  · simp [handle_fetch, hie, hfmt, try_filter_block]

/-- Witness for C5 at the concrete request and body of the claim example. -/
theorem fetch_filter_json_behaviour_witness :
    (⟨some 1, some "GET", some "u", none, some "json",
        [Json.str "a", Json.str "b"]⟩ : FetchReq).format = some "json"
    ∧ ([Json.str "a", Json.str "b"] : List Json) ≠ []
    ∧ handle_fetch true
        ⟨some 1, some "GET", some "u", none, some "json", [Json.str "a", Json.str "b"]⟩
        (HttpResult.ok 200 "x"
          (some (Json.obj [("a", Json.num 1), ("b", Json.num 2), ("c", Json.num 3)])))
        = [⟨1, 200, Json.dumps (Json.obj (filter_fields
            [("a", Json.num 1), ("b", Json.num 2), ("c", Json.num 3)]
            [Json.str "a", Json.str "b"]))⟩] :=
  ⟨rfl, by simp,
   (fetch_filter_json_behaviour
      ⟨some 1, some "GET", some "u", none, some "json", [Json.str "a", Json.str "b"]⟩
      200 "x" [("a", Json.num 1), ("b", Json.num 2), ("c", Json.num 3)]
      rfl (by simp)).1⟩

/-- C6 counterexample: with body `{"a": 1, "b": 2, "c": 3}` and fields
`["a", "z"]` — the listed key "z" being absent — the proxied body is the
filtered `{"a": 1}`, not the original body: the comprehension guard
`if k in data` silently skips absent keys, so the claimed fallback to the
raw body does not happen (the guarded `KeyError` branch is unreachable). -/
theorem fetch_filter_absent_key_counterexample :
    handle_fetch true ⟨some 3, some "GET", some "u", none, some "json",
        [Json.str "a", Json.str "z"]⟩
        (HttpResult.ok 200 "\x7b\"a\": 1, \"b\": 2, \"c\": 3\x7d"
          (some (Json.obj [("a", Json.num 1), ("b", Json.num 2), ("c", Json.num 3)])))
      = [⟨3, 200, "\x7b\"a\": 1\x7d"⟩]
    ∧ ("\x7b\"a\": 1\x7d" : String) ≠ "\x7b\"a\": 1, \"b\": 2, \"c\": 3\x7d" := by
  constructor
  · rfl
  · decide

/-- C6 amended: when the parsed body is a JSON object and a listed key is
absent, filtering still takes place — the absent key is simply omitted
from the filtered object while the rest is kept — and the original body is
proxied unchanged only when the body fails to parse as JSON. -/
theorem fetch_filter_absent_key_behaviour (req : FetchReq) (code : Int) (body : String)
    (kvs : List (String × Json)) (s : String)
    (hfmt : req.format = some "json") (hne : req.fields ≠ [])
    (_hmem : Json.str s ∈ req.fields) (habs : dictGet? kvs s = none) :
    (handle_fetch true req (HttpResult.ok code body (some (Json.obj kvs)))
        = [⟨req.idOpt.getD 0, code, Json.dumps (Json.obj (filter_fields kvs req.fields))⟩])
  ∧ dictGet? (filter_fields kvs req.fields) s = none
  ∧ (handle_fetch true req (HttpResult.ok code body none)
        = [⟨req.idOpt.getD 0, code, body⟩]) := by
  have hie : req.fields.isEmpty = false := by
    rcases hf : req.fields with _ | ⟨a, l⟩
    · exact absurd hf hne
    · rfl
  have htf : try_filter_block body (some (Json.obj kvs)) req.fields
      = Except.ok (Json.dumps (Json.obj (filter_fields kvs req.fields))) := by
    simp [try_filter_block, dict_comp_obj]
  refine ⟨by simp [handle_fetch, hie, hfmt, htf], ?_,
    by simp [handle_fetch, hie, hfmt, try_filter_block]⟩
  unfold filter_fields
  rw [filter_foldl_absent kvs s habs req.fields []]
  rfl

/-- Witness for C6 (amended) at the counterexample's concrete input. -/
theorem fetch_filter_absent_key_behaviour_witness :
    Json.str "z" ∈ ([Json.str "a", Json.str "z"] : List Json)
    ∧ dictGet? [("a", Json.num 1), ("b", Json.num 2), ("c", Json.num 3)] "z" = none
    ∧ dictGet? (filter_fields [("a", Json.num 1), ("b", Json.num 2), ("c", Json.num 3)]
        [Json.str "a", Json.str "z"]) "z" = none :=
  ⟨by simp, rfl,
   (fetch_filter_absent_key_behaviour
      ⟨some 3, some "GET", some "u", none, some "json", [Json.str "a", Json.str "z"]⟩
      200 "x" [("a", Json.num 1), ("b", Json.num 2), ("c", Json.num 3)] "z"
      rfl (by simp) (by simp) rfl).2.1⟩

/-- C7 amended: every inbound fetch request gets exactly one reply frame
with the request's id; an HTTP-level timeout yields status 408 with body
`{"error":"timeout"}`; any other failure of the HTTP call yields status 0
with body `{"error": <message>}`; a completed HTTP call yields the call's
status code with the (possibly filtered) body — except that an exception
raised inside the field-filtering block by a JSON body parsing to a
non-object value (a `TypeError` not caught by the filter's
`except (JSONDecodeError, KeyError)`) is also converted by the outer
`except Exception` into a status-0 `{"error": <message>}` reply.  In every
case no exception escapes the handler. -/
theorem fetch_reply_contract (req : FetchReq) (http : HttpResult) :
    ((handle_fetch true req http).length = 1
      ∧ ∀ r ∈ handle_fetch true req http, r.id = req.idOpt.getD 0)
  ∧ handle_fetch true req HttpResult.timeout
      = [⟨req.idOpt.getD 0, 408, "\x7b\"error\":\"timeout\"\x7d"⟩]
  ∧ (∀ m, handle_fetch true req (HttpResult.exn m)
      = [⟨req.idOpt.getD 0, 0, Json.dumps (Json.obj [("error", Json.str m)])⟩])
  ∧ (∀ code body parsed, (req.fields.isEmpty = true ∨ req.format ≠ some "json") →
      handle_fetch true req (HttpResult.ok code body parsed)
        = [⟨req.idOpt.getD 0, code, body⟩])
  ∧ (∀ code body parsed out, req.fields.isEmpty = false → req.format = some "json" →
      try_filter_block body parsed req.fields = Except.ok out →
      handle_fetch true req (HttpResult.ok code body parsed)
        = [⟨req.idOpt.getD 0, code, out⟩])
  ∧ (∀ code body parsed m, req.fields.isEmpty = false → req.format = some "json" →
      try_filter_block body parsed req.fields = Except.error m →
      handle_fetch true req (HttpResult.ok code body parsed)
        = [⟨req.idOpt.getD 0, 0, Json.dumps (Json.obj [("error", Json.str m)])⟩]) := by
  have hshape : ∀ h2 : HttpResult,
      ∃ st2 b2, handle_fetch true req h2 = [⟨req.idOpt.getD 0, st2, b2⟩] := by
    intro h2
    cases h2 with
    | timeout => exact ⟨408, _, rfl⟩
    | exn m => exact ⟨0, _, rfl⟩
    | ok code body parsed =>
        by_cases hc : (!req.fields.isEmpty && (req.format == some "json")) = true
        · cases htf : try_filter_block body parsed req.fields with
          | ok b => exact ⟨code, b, by simp [handle_fetch, hc, htf]⟩
          | error m =>
              exact ⟨0, Json.dumps (Json.obj [("error", Json.str m)]),
                by simp [handle_fetch, hc, htf]⟩
        · exact ⟨code, body, by simp [handle_fetch, hc]⟩
  refine ⟨?_, by rfl, fun m => by rfl, ?_, ?_, ?_⟩
  · obtain ⟨st2, b2, he⟩ := hshape http
    refine ⟨by rw [he]; rfl, ?_⟩
    intro r hr
    rw [he] at hr
    simp at hr
    rw [hr]
  · intro code body parsed h
    rcases h with h | h
    · have hc : (!req.fields.isEmpty && (req.format == some "json")) = false := by
        rw [h]
        rfl
      simp [handle_fetch, hc]
    · have hb : (req.format == some "json") = false := beq_eq_false_iff_ne.mpr h
      have hc : (!req.fields.isEmpty && (req.format == some "json")) = false := by
        rw [hb, Bool.and_false]
      simp [handle_fetch, hc]
  · intro code body parsed out h1 h2 h3
    have hc : (!req.fields.isEmpty && (req.format == some "json")) = true := by
      rw [h1, h2]
      rfl
    simp [handle_fetch, hc, h3]
  · intro code body parsed m h1 h2 h3
    have hc : (!req.fields.isEmpty && (req.format == some "json")) = true := by
      rw [h1, h2]
      rfl
    simp [handle_fetch, hc, h3]

/-- Witness for C7 (amended) at a concrete request: the timeout reply and
an unfiltered completed call. -/
theorem fetch_reply_contract_witness :
    (handle_fetch true ⟨some 2, some "GET", some "u", none, none, []⟩
        HttpResult.timeout).length = 1
    ∧ handle_fetch true ⟨some 2, some "GET", some "u", none, none, []⟩ HttpResult.timeout
        = [⟨2, 408, "\x7b\"error\":\"timeout\"\x7d"⟩]
    ∧ handle_fetch true ⟨some 2, some "GET", some "u", none, none, []⟩
        (HttpResult.ok 200 "hi" none) = [⟨2, 200, "hi"⟩] :=
  ⟨(fetch_reply_contract ⟨some 2, some "GET", some "u", none, none, []⟩
      HttpResult.timeout).1.1,
   (fetch_reply_contract ⟨some 2, some "GET", some "u", none, none, []⟩
      HttpResult.timeout).2.1,
   (fetch_reply_contract ⟨some 2, some "GET", some "u", none, none, []⟩
      (HttpResult.ok 200 "hi" none)).2.2.2.1 200 "hi" none (Or.inl rfl)⟩

/-- C7 counterexample: a completed HTTP call (status 200) whose body `"5"`
parses to the JSON number 5, with format "json" and fields `["a"]`,
produces a status-0 error reply, not the call's status code: the
membership test `"a" in 5` raises a `TypeError` that the filter block does
not catch, and the outer `except Exception` converts it to status 0. -/
theorem fetch_nonobject_filter_counterexample :
    handle_fetch true ⟨some 9, some "GET", some "u", none, some "json", [Json.str "a"]⟩
        (HttpResult.ok 200 "5" (some (Json.num 5)))
      = [⟨9, 0, Json.dumps (Json.obj [("error", Json.str "argument is not iterable")])⟩]
    ∧ (0 : Int) ≠ 200 := by
  constructor
  · rfl
  · decide
